import Mathlib

/-!
Shallow embedding of `src/fastapi_sqlalchemy/crud.py` — a generic CRUD layer
over SQLAlchemy sessions.

Modelling decisions, each traceable to the source:

* An entity instance is its plain mapping of column name to value
  (`Fields`), since the only way the engine touches an instance is through
  attribute access (`getattr`/`setattr`) and `as_dict()`.
* `models.Session.query(cls)` yields a SQLAlchemy `Query`; `.limit(n)` and
  `.offset(n)` each *set an attribute* of the query object rather than
  transforming a row list, and execution emits `LIMIT n OFFSET m`, whose SQL
  semantics are: skip `offset` rows of the filtered/sorted result, then
  return at most `limit` rows.  The `Query` structure below records the
  pieces and `Query.all` executes them in SQL order.
* Python truthiness guards (`if filter_spec:`, `if sort_spec:`, `if limit:`)
  are modelled exactly: `None` and the empty list are falsy, and the integer
  `0` is falsy.
* `session.commit()` after `session.add(instance)` flushes the insert; the
  store fills column defaults for unset columns, in particular the UUID
  primary key default.  UUIDs are modelled as integers drawn from a
  per-store counter `nextId`; column defaults are a parameter `defaults`
  of `create_instance` standing for the entity type's column default set.
* `raise HTTPException(status_code=404)` is an `Except.error` carrying the
  status code; the store is threaded explicitly through mutating
  operations.
-/

/-- A column value: integer, string or SQL NULL. -/
inductive Val where
  | i (n : Int)
  | s (str : String)
  | null
  deriving DecidableEq, Repr

/-- An entity instance / serialized instance: a plain column-name-to-value
mapping, as produced by `as_dict()`. -/
abbrev Fields := List (String × Val)

/-- Attribute access `getattr(instance, k)`: the first binding of key `k`. -/
def getAttr (r : Fields) (k : String) : Option Val :=
  (r.find? (fun kv => kv.1 == k)).map (fun kv => kv.2)

/-- Does the mapping bind key `k`? -/
def hasKey (r : Fields) (k : String) : Bool :=
  r.any (fun kv => kv.1 == k)

/-- Attribute update `setattr(instance, k, v)`: overwrite the binding of `k`
in place, or append a fresh binding. -/
def setAttr : Fields → String → Val → Fields
  | [], k, v => [(k, v)]
  | kv :: rest, k, v => if kv.1 == k then (k, v) :: rest else kv :: setAttr rest k v

/-- `instance.as_dict()`: the instance already is its plain mapping. -/
def as_dict (r : Fields) : Fields := r

/-- The backing store reached through a session: the rows of the entity's
table, plus the counter supplying store-generated identifiers. -/
structure Store where
  rows : List Fields
  nextId : Int
  deriving DecidableEq, Repr

/-- `session.query(cls).get(instance_id)`: primary-key lookup. -/
def Store.getById (st : Store) (instance_id : Int) : Option Fields :=
  st.rows.find? (fun r => getAttr r "id" == some (Val.i instance_id))

/-- Filter operators of the declarative spec (`sqlalchemy_filters`). -/
inductive FilterOp where
  | eq | ne | lt | le | gt | ge
  deriving DecidableEq, Repr

/-- One clause of a filter spec: `{"field": f, "op": o, "value": v}`. -/
structure FilterClause where
  field : String
  op : FilterOp
  value : Val
  deriving DecidableEq, Repr

/-- Strict comparison of values; incomparable kinds compare false, as SQL
comparisons with mismatched types match no row. -/
def Val.ltb : Val → Val → Bool
  | .i a, .i b => a < b
  | .s a, .s b => a < b
  | _, _ => false

/-- Evaluate one operator. -/
def evalOp : FilterOp → Val → Val → Bool
  | .eq, a, b => a == b
  | .ne, a, b => a != b
  | .lt, a, b => Val.ltb a b
  | .le, a, b => Val.ltb a b || a == b
  | .gt, a, b => Val.ltb b a
  | .ge, a, b => Val.ltb b a || a == b

/-- Evaluate one filter clause against a row; an unbound column matches
nothing (SQL NULL-ish semantics for a missing attribute). -/
def evalClause (c : FilterClause) (r : Fields) : Bool :=
  match getAttr r c.field with
  | some v => evalOp c.op v c.value
  | none => false

/-- One clause of a sort spec: `{"field": f, "direction": "asc"|"desc"}`. -/
structure SortClause where
  field : String
  direction : String
  deriving DecidableEq, Repr

/-- Rank used to compare values of different kinds (NULLs first). -/
def Val.rank : Val → Nat
  | .null => 0
  | .i _ => 1
  | .s _ => 2

/-- Total comparison of values, for ORDER BY keys. -/
def Val.cmp : Val → Val → Ordering
  | .i a, .i b => compare a b
  | .s a, .s b => compare a b
  | a, b => compare a.rank b.rank

/-- Compare optional sort keys; a missing column sorts first. -/
def cmpOptVal : Option Val → Option Val → Ordering
  | none, none => .eq
  | none, some _ => .lt
  | some _, none => .gt
  | some a, some b => Val.cmp a b

/-- Lexicographic comparison of two rows under a sort spec: the first clause
is the primary key of the ordering, later clauses break ties. -/
def cmpRows : List SortClause → Fields → Fields → Ordering
  | [], _, _ => .eq
  | c :: rest, a, b =>
    let o := cmpOptVal (getAttr a c.field) (getAttr b c.field)
    let o' := if c.direction == "desc" then o.swap else o
    match o' with
    | .eq => cmpRows rest a b
    | _ => o'

/-- `a` may be placed before `b` under the sort spec. -/
def leRows (sp : List SortClause) (a b : Fields) : Bool :=
  cmpRows sp a b != Ordering.gt

/-- Stable insertion into a sorted row list. -/
def insertSorted (le : Fields → Fields → Bool) (x : Fields) : List Fields → List Fields
  | [] => [x]
  | y :: ys => if le x y then x :: y :: ys else y :: insertSorted le x ys

/-- Stable sort of the rows by the sort spec (ORDER BY). -/
def sortRows (sp : List SortClause) : List Fields → List Fields
  | [] => []
  | x :: xs => insertSorted (leRows sp) x (sortRows sp xs)

/-- A SQLAlchemy `Query` object: the base row set together with the
accumulated filter, ordering, LIMIT and OFFSET attributes.  `.limit` and
`.offset` set attributes; the SQL emitted at execution time applies
OFFSET before LIMIT irrespective of the order the attributes were set. -/
structure Query where
  rows : List Fields
  filters : List FilterClause
  sorts : List SortClause
  limitVal : Option Nat
  offsetVal : Nat
  deriving DecidableEq, Repr

/-- `models.Session.query(cls)`: all rows, nothing else set. -/
def Store.query (st : Store) : Query :=
  Query.mk st.rows [] [] none 0

/-- `query.limit(n)`. -/
def Query.limit (q : Query) (n : Nat) : Query :=
  Query.mk q.rows q.filters q.sorts (some n) q.offsetVal

/-- `query.offset(n)`. -/
def Query.offset (q : Query) (n : Nat) : Query :=
  Query.mk q.rows q.filters q.sorts q.limitVal n

/-- `sqlalchemy_filters.apply_filters(query, filter_spec)`: conjoin the
clauses onto the query. -/
def apply_filters (q : Query) (spec : List FilterClause) : Query :=
  Query.mk q.rows (q.filters ++ spec) q.sorts q.limitVal q.offsetVal

/-- `sqlalchemy_filters.apply_sort(query, sort_spec)`. -/
def apply_sort (q : Query) (spec : List SortClause) : Query :=
  Query.mk q.rows q.filters (q.sorts ++ spec) q.limitVal q.offsetVal

/-- The full filtered and sorted result set, before pagination. -/
def Query.matched (q : Query) : List Fields :=
  sortRows q.sorts (q.rows.filter (fun r => q.filters.all (fun c => evalClause c r)))

/-- Apply an optional LIMIT. -/
def takeOpt : Option Nat → List Fields → List Fields
  | none, l => l
  | some n, l => l.take n

/-- `query.all()`: execute — filter, sort, skip OFFSET rows, return at most
LIMIT rows. -/
def Query.all (q : Query) : List Fields :=
  takeOpt q.limitVal (q.matched.drop q.offsetVal)

/-- `query.count()`: SQLAlchemy wraps the query in a subquery and counts its
rows. -/
def Query.count (q : Query) : Nat :=
  q.all.length

/-- Python truthiness of an optional list argument: `None` and `[]` are
falsy. -/
def truthyList {α : Type} : Option (List α) → Bool
  | none => false
  | some l => !l.isEmpty

/-- Python truthiness of an optional integer argument: `None` and `0` are
falsy. -/
def truthyNat : Option Nat → Bool
  | none => false
  | some n => n != 0

/-- `raise HTTPException(status_code=...)`. -/
structure HTTPException where
  status_code : Nat
  deriving DecidableEq, Repr

/-- `list_instances(cls, filter_spec, sort_spec, offset, limit)`. -/
def list_instances (st : Store) (filter_spec : Option (List FilterClause))
    (sort_spec : Option (List SortClause)) (offset : Nat) (limit : Option Nat) :
    List Fields :=
  let query := st.query
  let query := if truthyList filter_spec then apply_filters query (filter_spec.getD []) else query
  let query := if truthyList sort_spec then apply_sort query (sort_spec.getD []) else query
  let query := if truthyNat limit then query.limit (limit.getD 0) else query
  let query := query.offset offset
  (query.all).map as_dict

/-- `count_instances(cls, filter_spec, sort_spec)`. -/
def count_instances (st : Store) (filter_spec : Option (List FilterClause))
    (sort_spec : Option (List SortClause)) : Nat :=
  let query := st.query
  let query := if truthyList filter_spec then apply_filters query (filter_spec.getD []) else query
  let query := if truthyList sort_spec then apply_sort query (sort_spec.getD []) else query
  query.count

/-- `cls(**data.dict())`: construct an in-memory instance carrying exactly
the validated fields. -/
def construct (data : Fields) : Fields := data

/-- At flush time the store fills each column default for a column the
instance does not set. -/
def applyDefaults (defaults : Fields) (r : Fields) : Fields :=
  defaults.foldl (fun acc kv => if hasKey acc kv.1 then acc else setAttr acc kv.1 kv.2) r

/-- `session.add(instance); session.commit()`: assign the primary-key
default when unset, fill column defaults, and append the committed row. -/
def Store.commitNew (st : Store) (defaults : Fields) (inst : Fields) : Fields × Store :=
  let withId := if hasKey inst "id" then inst else setAttr inst "id" (Val.i st.nextId)
  let r := applyDefaults defaults withId
  (r, Store.mk (st.rows ++ [r]) (st.nextId + 1))

/-- `create_instance(cls, data)`: construct, add, commit, and serialize the
merged (post-commit) instance. -/
def create_instance (st : Store) (defaults : Fields) (data : Fields) :
    Except HTTPException Fields × Store :=
  let rs := st.commitNew defaults (construct data)
  (Except.ok (as_dict rs.1), rs.2)

/-- The unit of work `_retrieve` sent to the thread pool: `None` exactly
when the primary-key lookup finds nothing. -/
def retrieveWork (st : Store) (instance_id : Int) : Option Fields :=
  match st.getById instance_id with
  | some inst => some (as_dict inst)
  | none => none

/-- `retrieve_instance(cls, instance_id)`: run the unit of work, translate
`None` to HTTP 404. -/
def retrieve_instance (st : Store) (instance_id : Int) : Except HTTPException Fields :=
  match retrieveWork st instance_id with
  | none => Except.error (HTTPException.mk 404)
  | some data => Except.ok data

/-- `for key, value in data.dict().items(): setattr(instance, key, value)`. -/
def setFields (r : Fields) (data : Fields) : Fields :=
  data.foldl (fun acc kv => setAttr acc kv.1 kv.2) r

/-- Replace the first row satisfying `p` (the session mutates the very
object the lookup returned). -/
def updateFirst (p : Fields → Bool) (f : Fields → Fields) : List Fields → List Fields
  | [] => []
  | r :: rs => if p r then f r :: rs else r :: updateFirst p f rs

/-- Remove the first row satisfying `p` (`session.delete(instance)`). -/
def removeFirst (p : Fields → Bool) : List Fields → List Fields
  | [] => []
  | r :: rs => if p r then rs else r :: removeFirst p rs

/-- The unit of work `_update`: look up, `None` when absent; otherwise
overwrite every field of `data` onto the instance, commit, and serialize
the merged instance. -/
def updateWork (st : Store) (instance_id : Int) (data : Fields) :
    Option (Fields × Store) :=
  match st.getById instance_id with
  | none => none
  | some inst =>
    let inst' := setFields inst data
    some (as_dict inst',
      Store.mk
        (updateFirst (fun r => getAttr r "id" == some (Val.i instance_id))
          (fun _ => inst') st.rows)
        st.nextId)

/-- `update_instance(cls, instance_id, data)`: HTTP 404 when the unit of
work returned `None`, otherwise the post-commit serialized form. -/
def update_instance (st : Store) (instance_id : Int) (data : Fields) :
    Except HTTPException Fields × Store :=
  match updateWork st instance_id data with
  | none => (Except.error (HTTPException.mk 404), st)
  | some ds => (Except.ok ds.1, ds.2)

/-- The unit of work `_delete`: look up, `None` when absent; otherwise
capture the serialized form, then remove and commit. -/
def deleteWork (st : Store) (instance_id : Int) : Option (Fields × Store) :=
  match st.getById instance_id with
  | none => none
  | some inst =>
    let result := as_dict inst
    some (result,
      Store.mk
        (removeFirst (fun r => getAttr r "id" == some (Val.i instance_id)) st.rows)
        st.nextId)

/-- `delete_instance(cls, instance_id)`: HTTP 404 when the unit of work
returned `None`, otherwise the captured pre-deletion serialized form. -/
def delete_instance (st : Store) (instance_id : Int) : Except HTTPException Fields × Store :=
  match deleteWork st instance_id with
  | none => (Except.error (HTTPException.mk 404), st)
  | some ds => (Except.ok ds.1, ds.2)

/-- The row's primary key is set and below the store's counter. -/
def rowIdOk (bound : Int) (r : Fields) : Bool :=
  match getAttr r "id" with
  | some (Val.i n) => n < bound
  | _ => false

/-- Store well-formedness: every row has an integer primary key below the
identifier counter, and primary keys are unique (the PRIMARY KEY
constraint). -/
def Store.Wf (st : Store) : Prop :=
  (∀ r ∈ st.rows, rowIdOk st.nextId r = true) ∧
    (st.rows.map (fun r => getAttr r "id")).Nodup

instance (st : Store) : Decidable st.Wf := by
  unfold Store.Wf
  infer_instance

/-! Supporting lemmas. -/

theorem getAttr_nil (k : String) : getAttr [] k = none := rfl

theorem getAttr_cons (kv : String × Val) (rest : Fields) (k : String) :
    getAttr (kv :: rest) k = if kv.1 == k then some kv.2 else getAttr rest k := by
  by_cases h : kv.1 == k <;> simp [getAttr, List.find?, h]

theorem getAttr_setAttr_self (r : Fields) (k : String) (v : Val) :
    getAttr (setAttr r k v) k = some v := by
  induction r with
  | nil => simp [setAttr, getAttr, List.find?]
  | cons kv rest ih =>
    by_cases h : kv.1 == k
    · simp [setAttr, h, getAttr_cons]
    · simp [setAttr, h, getAttr_cons, ih]

theorem getAttr_setAttr_ne (r : Fields) (k k' : String) (v : Val) (h : k' ≠ k) :
    getAttr (setAttr r k v) k' = getAttr r k' := by
  induction r with
  | nil =>
    have : (k == k') = false := by simpa [beq_iff_eq] using fun e => h e.symm
    simp [setAttr, getAttr, List.find?, this]
  | cons kv rest ih =>
    by_cases hk : kv.1 == k
    · have hkk : kv.1 = k := by simpa [beq_iff_eq] using hk
      have : (k == k') = false := by simpa [beq_iff_eq] using fun e => h e.symm
      simp [setAttr, hk, getAttr_cons, this, hkk]
    · simp [setAttr, hk, getAttr_cons, ih]

theorem hasKey_setAttr (r : Fields) (k k' : String) (v : Val) :
    hasKey (setAttr r k v) k' = (hasKey r k' || (k == k')) := by
  induction r with
  | nil => simp [setAttr, hasKey]
  | cons kv rest ih =>
    cases hk : (kv.1 == k)
    · simp only [setAttr, hk, Bool.false_eq_true, if_false, hasKey, List.any_cons]
      simp only [hasKey] at ih
      rw [ih, Bool.or_assoc]
    · have hkk : kv.1 = k := by simpa [beq_iff_eq] using hk
      cases h' : (k == k') <;>
        simp [setAttr, hk, hasKey, hkk, h', Bool.or_comm]

theorem hasKey_false_iff_getAttr (r : Fields) (k : String) :
    hasKey r k = false ↔ getAttr r k = none := by
  induction r with
  | nil => simp [hasKey, getAttr]
  | cons kv rest ih =>
    cases h : (kv.1 == k)
    · simp only [hasKey, List.any_cons, h, Bool.false_or, getAttr_cons, Bool.false_eq_true,
        if_false]
      simpa only [hasKey] using ih
    · simp [hasKey, getAttr_cons, h]

theorem getAttr_applyDefaults_of_hasKey (ds : Fields) (r : Fields) (k : String)
    (h : hasKey r k = true) : getAttr (applyDefaults ds r) k = getAttr r k := by
  induction ds generalizing r with
  | nil => simp [applyDefaults]
  | cons d ds ih =>
    simp only [applyDefaults, List.foldl_cons] at ih ⊢
    cases hd : hasKey r d.1
    · have hne : k ≠ d.1 := by
        intro e
        rw [← e] at hd
        rw [h] at hd
        exact Bool.noConfusion hd
      simp only [hd, Bool.false_eq_true, if_false]
      rw [ih (setAttr r d.1 d.2) (by rw [hasKey_setAttr, h, Bool.true_or]),
        getAttr_setAttr_ne _ _ _ _ hne]
    · simp only [hd, if_true]
      exact ih r h

theorem getAttr_setFields_of_not_hasKey (data : Fields) (r : Fields) (k : String)
    (h : hasKey data k = false) : getAttr (setFields r data) k = getAttr r k := by
  induction data generalizing r with
  | nil => simp [setFields]
  | cons d ds ih =>
    simp only [hasKey, List.any_cons, Bool.or_eq_false_iff] at h
    simp only [setFields, List.foldl_cons] at ih ⊢
    rw [ih _ h.2, getAttr_setAttr_ne]
    intro e
    rw [e] at h
    simpa using h.1

theorem setFields_cons (r : Fields) (d : String × Val) (ds : Fields) :
    setFields r (d :: ds) = setFields (setAttr r d.1 d.2) ds := rfl

theorem getAttr_setFields_mem (data : Fields) (r : Fields) (k : String) (v : Val)
    (hnd : (data.map Prod.fst).Nodup) (hm : (k, v) ∈ data) :
    getAttr (setFields r data) k = some v := by
  induction data generalizing r with
  | nil => cases hm
  | cons d ds ih =>
    simp only [List.map_cons, List.nodup_cons] at hnd
    rw [setFields_cons]
    rcases List.mem_cons.mp hm with he | hm'
    · subst he
      have hnk : hasKey ds k = false := by
        cases hk : hasKey ds k
        · rfl
        · exfalso
          apply hnd.1
          simp only [hasKey, List.any_eq_true] at hk
          obtain ⟨kv, hkv, hb⟩ := hk
          have hkv1 : kv.1 = k := by simpa [beq_iff_eq] using hb
          exact List.mem_map.mpr ⟨kv, hkv, hkv1⟩
      rw [getAttr_setFields_of_not_hasKey ds _ k hnk, getAttr_setAttr_self]
    · exact ih (setAttr r d.1 d.2) hnd.2 hm'

theorem find?_removeFirst_id (rows : List Fields) (instance_id : Int)
    (hnd : (rows.map (fun r => getAttr r "id")).Nodup) :
    (removeFirst (fun r => getAttr r "id" == some (Val.i instance_id)) rows).find?
      (fun r => getAttr r "id" == some (Val.i instance_id)) = none := by
  induction rows with
  | nil => rfl
  | cons r rs ih =>
    simp only [List.map_cons, List.nodup_cons] at hnd
    cases hp : (getAttr r "id" == some (Val.i instance_id))
    · simp only [removeFirst, hp, Bool.false_eq_true, if_false]
      rw [List.find?_cons_of_neg _ (by simp [hp])]
      exact ih hnd.2
    · simp only [removeFirst, hp, if_true]
      rw [List.find?_eq_none]
      intro x hx hpx
      apply hnd.1
      have h1 : getAttr r "id" = some (Val.i instance_id) := by simpa using hp
      have h2 : getAttr x "id" = some (Val.i instance_id) := by simpa using hpx
      rw [h1, ← h2]
      exact List.mem_map.mpr ⟨x, hx, rfl⟩

theorem mem_updateFirst (p : Fields → Bool) (f : Fields → Fields) (rows : List Fields)
    (x : Fields) (h : rows.find? p = some x) : f x ∈ updateFirst p f rows := by
  induction rows with
  | nil => simp [List.find?] at h
  | cons r rs ih =>
    cases hp : p r
    · rw [List.find?_cons_of_neg _ (by simp [hp])] at h
      simp only [updateFirst, hp, Bool.false_eq_true, if_false]
      exact List.mem_cons_of_mem r (ih h)
    · rw [List.find?_cons_of_pos _ (by simp [hp])] at h
      injection h with h
      subst h
      simp [updateFirst, hp]

theorem length_insertSorted (le : Fields → Fields → Bool) (x : Fields) (l : List Fields) :
    (insertSorted le x l).length = l.length + 1 := by
  induction l with
  | nil => rfl
  | cons y ys ih => cases h : le x y <;> simp [insertSorted, h, ih]

theorem length_sortRows (sp : List SortClause) (l : List Fields) :
    (sortRows sp l).length = l.length := by
  induction l with
  | nil => rfl
  | cons x xs ih => simp [sortRows, length_insertSorted, ih]

/-- The filter clauses actually applied, after the truthiness guard. -/
def effFilters (filter_spec : Option (List FilterClause)) : List FilterClause :=
  if truthyList filter_spec then filter_spec.getD [] else []

/-- The sort clauses actually applied, after the truthiness guard. -/
def effSorts (sort_spec : Option (List SortClause)) : List SortClause :=
  if truthyList sort_spec then sort_spec.getD [] else []

/-- The full filtered and sorted result set of a `list_instances` call,
before any pagination. -/
def fullResult (st : Store) (fs : Option (List FilterClause))
    (ss : Option (List SortClause)) : List Fields :=
  sortRows (effSorts ss) (st.rows.filter (fun r => (effFilters fs).all (fun c => evalClause c r)))

theorem list_instances_closed (st : Store) (fs : Option (List FilterClause))
    (ss : Option (List SortClause)) (O : Nat) (lim : Option Nat) :
    list_instances st fs ss O lim =
      (takeOpt (if truthyNat lim then some (lim.getD 0) else none)
        ((fullResult st fs ss).drop O)).map as_dict := by
  unfold list_instances fullResult effFilters effSorts
  cases hf : truthyList fs <;> cases hs : truthyList ss <;> cases hl : truthyNat lim <;>
    simp [Query.all, Query.matched, Query.limit, Query.offset, apply_filters, apply_sort,
      Store.query, takeOpt, hf, hs, hl]

theorem count_instances_closed (st : Store) (fs : Option (List FilterClause))
    (ss : Option (List SortClause)) :
    count_instances st fs ss =
      (st.rows.filter (fun r => (effFilters fs).all (fun c => evalClause c r))).length := by
  unfold count_instances effFilters
  cases hf : truthyList fs <;> cases hs : truthyList ss <;>
    simp [Query.count, Query.all, Query.matched, apply_filters, apply_sort, Store.query,
      takeOpt, hf, hs, length_sortRows]

/-- Claim C1 -/
theorem list_instances_page_window (st : Store) (fs : Option (List FilterClause))
    (ss : Option (List SortClause)) (O L : Nat) (hL : 1 ≤ L) :
    list_instances st fs ss O (some L) =
      ((list_instances st fs ss 0 none).drop O).take L ∧
    list_instances st fs ss O none = (list_instances st fs ss 0 none).drop O ∧
    ∀ (q : Query) (n m : Nat), (q.limit n).offset m = (q.offset m).limit n := by
  have hLpos : truthyNat (some L) = true := by
    simp [truthyNat]
    omega
  refine ⟨?_, ?_, fun q n m => rfl⟩
  · rw [list_instances_closed, list_instances_closed, hLpos]
    simp [takeOpt, truthyNat, List.map_take, List.map_drop]
  · rw [list_instances_closed, list_instances_closed]
    simp [takeOpt, truthyNat, List.map_drop]

/-- Claim C7 -/
theorem count_eq_list_length (st : Store) (fs : Option (List FilterClause))
    (ss : Option (List SortClause)) :
    count_instances st fs ss = (list_instances st fs none 0 none).length ∧
    count_instances st fs ss = (list_instances st fs ss 0 none).length ∧
    count_instances st fs ss = count_instances st fs none := by
  refine ⟨?_, ?_, ?_⟩
  · rw [count_instances_closed, list_instances_closed]
    simp [takeOpt, truthyNat, fullResult, length_sortRows]
  · rw [count_instances_closed, list_instances_closed]
    simp [takeOpt, truthyNat, fullResult, length_sortRows]
  · rw [count_instances_closed, count_instances_closed]

/-- Claim C8 -/
theorem list_instances_limit_zero (st : Store) (fs : Option (List FilterClause))
    (ss : Option (List SortClause)) (O : Nat) :
    list_instances st fs ss O (some 0) = list_instances st fs ss O none ∧
    list_instances st fs ss O (some 0) = (list_instances st fs ss 0 none).drop O := by
  constructor
  · rfl
  · rw [list_instances_closed, list_instances_closed]
    simp [takeOpt, truthyNat, List.map_drop]

/-- Claim C9 -/
theorem empty_spec_eq_none_spec (st : Store) (fs : Option (List FilterClause))
    (ss : Option (List SortClause)) (O : Nat) (lim : Option Nat) :
    list_instances st (some []) ss O lim = list_instances st none ss O lim ∧
    list_instances st fs (some []) O lim = list_instances st fs none O lim ∧
    count_instances st (some []) ss = count_instances st none ss ∧
    count_instances st fs (some []) = count_instances st fs none :=
  ⟨rfl, rfl, rfl, rfl⟩

/-- Claim C2 -/
theorem create_then_retrieve (st : Store) (defaults data : Fields)
    (hwf : st.Wf) (hd : hasKey data "id" = false) :
    ∃ ser, (create_instance st defaults data).1 = Except.ok ser ∧
      ser = applyDefaults defaults (setAttr (construct data) "id" (Val.i st.nextId)) ∧
      getAttr ser "id" = some (Val.i st.nextId) ∧
      retrieve_instance (create_instance st defaults data).2 st.nextId = Except.ok ser := by
  have hcreate : create_instance st defaults data =
      (Except.ok (applyDefaults defaults (setAttr (construct data) "id" (Val.i st.nextId))),
        Store.mk
          (st.rows ++ [applyDefaults defaults (setAttr (construct data) "id" (Val.i st.nextId))])
          (st.nextId + 1)) := by
    simp [create_instance, Store.commitNew, construct, as_dict, hd]
  have hid : getAttr (applyDefaults defaults (setAttr (construct data) "id" (Val.i st.nextId)))
      "id" = some (Val.i st.nextId) := by
    rw [getAttr_applyDefaults_of_hasKey]
    · exact getAttr_setAttr_self _ _ _
    · rw [hasKey_setAttr]
      simp [construct, hd]
  have hfind : (st.rows ++
        [applyDefaults defaults (setAttr (construct data) "id" (Val.i st.nextId))]).find?
      (fun x => getAttr x "id" == some (Val.i st.nextId)) = some
        (applyDefaults defaults (setAttr (construct data) "id" (Val.i st.nextId))) := by
    rw [List.find?_append]
    have h1 : st.rows.find? (fun x => getAttr x "id" == some (Val.i st.nextId)) = none := by
      rw [List.find?_eq_none]
      intro x hx hpx
      have hok := hwf.1 x hx
      have hgx : getAttr x "id" = some (Val.i st.nextId) := by simpa using hpx
      rw [rowIdOk, hgx] at hok
      simp at hok
    rw [h1]
    simp [List.find?, hid]
  refine ⟨applyDefaults defaults (setAttr (construct data) "id" (Val.i st.nextId)),
    by rw [hcreate], rfl, hid, ?_⟩
  rw [hcreate]
  simp [retrieve_instance, retrieveWork, Store.getById, hfind, as_dict]

/-- Claim C6 -/
theorem retrieve_notfound_iff (st : Store) (instance_id : Int) :
    (retrieve_instance st instance_id = Except.error (HTTPException.mk 404) ↔
      st.getById instance_id = none) ∧
    ∀ inst, st.getById instance_id = some inst →
      retrieve_instance st instance_id = Except.ok (as_dict inst) := by
  cases h : st.getById instance_id <;>
    simp [retrieve_instance, retrieveWork, h]

/-- Claim C3 -/
theorem delete_then_retrieve_notfound (st : Store) (instance_id : Int) (inst : Fields)
    (hwf : st.Wf) (h : st.getById instance_id = some inst) :
    (delete_instance st instance_id).1 = Except.ok (as_dict inst) ∧
    retrieve_instance (delete_instance st instance_id).2 instance_id =
      Except.error (HTTPException.mk 404) := by
  have hdel : delete_instance st instance_id =
      (Except.ok (as_dict inst),
        Store.mk (removeFirst (fun r => getAttr r "id" == some (Val.i instance_id)) st.rows)
          st.nextId) := by
    simp [delete_instance, deleteWork, h]
  rw [hdel]
  refine ⟨rfl, ?_⟩
  simp [retrieve_instance, retrieveWork, Store.getById,
    find?_removeFirst_id st.rows instance_id hwf.2]

/-- Claim C4 -/
theorem update_notfound_unchanged (st : Store) (instance_id : Int) (data : Fields)
    (h : st.getById instance_id = none) :
    update_instance st instance_id data = (Except.error (HTTPException.mk 404), st) := by
  simp [update_instance, updateWork, h]

/-- Claim C5 -/
theorem update_overwrites_and_commits (st : Store) (instance_id : Int) (data inst : Fields)
    (hnd : (data.map Prod.fst).Nodup) (h : st.getById instance_id = some inst) :
    ∃ ser, (update_instance st instance_id data).1 = Except.ok ser ∧
      ser = as_dict (setFields inst data) ∧
      (∀ k v, (k, v) ∈ data → getAttr ser k = some v) ∧
      (∀ k, hasKey data k = false → getAttr ser k = getAttr inst k) ∧
      ser ∈ (update_instance st instance_id data).2.rows := by
  have hupd : update_instance st instance_id data =
      (Except.ok (as_dict (setFields inst data)),
        Store.mk (updateFirst (fun r => getAttr r "id" == some (Val.i instance_id))
          (fun _ => setFields inst data) st.rows) st.nextId) := by
    simp [update_instance, updateWork, h]
  refine ⟨as_dict (setFields inst data), by rw [hupd], rfl, ?_, ?_, ?_⟩
  · intro k v hm
    exact getAttr_setFields_mem data inst k v hnd hm
  · intro k hk
    exact getAttr_setFields_of_not_hasKey data inst k hk
  · rw [hupd]
    exact mem_updateFirst _ (fun _ => setFields inst data) st.rows inst h

/-- Claim C10 -/
theorem notfound_mechanism (st : Store) (instance_id : Int) (data : Fields) :
    (retrieveWork st instance_id = none ↔ st.getById instance_id = none) ∧
    (updateWork st instance_id data = none ↔ st.getById instance_id = none) ∧
    (deleteWork st instance_id = none ↔ st.getById instance_id = none) ∧
    (∀ e, retrieve_instance st instance_id = Except.error e →
      e = HTTPException.mk 404 ∧ retrieveWork st instance_id = none) ∧
    (retrieveWork st instance_id = none →
      retrieve_instance st instance_id = Except.error (HTTPException.mk 404)) ∧
    (∀ e, (update_instance st instance_id data).1 = Except.error e →
      e = HTTPException.mk 404 ∧ updateWork st instance_id data = none) ∧
    (updateWork st instance_id data = none →
      (update_instance st instance_id data).1 = Except.error (HTTPException.mk 404)) ∧
    (∀ e, (delete_instance st instance_id).1 = Except.error e →
      e = HTTPException.mk 404 ∧ deleteWork st instance_id = none) ∧
    (deleteWork st instance_id = none →
      (delete_instance st instance_id).1 = Except.error (HTTPException.mk 404)) := by
  cases h : st.getById instance_id <;>
    simp [retrieveWork, updateWork, deleteWork, retrieve_instance, update_instance,
      delete_instance, h]

/-- A concrete three-row store used by the witnesses. -/
def wRow1 : Fields := [("id", Val.i 1), ("name", Val.s "A"), ("age", Val.i 10)]

/-- Second concrete row. -/
def wRow2 : Fields := [("id", Val.i 2), ("name", Val.s "B"), ("age", Val.i 20)]

/-- Third concrete row. -/
def wRow3 : Fields := [("id", Val.i 3), ("name", Val.s "C"), ("age", Val.i 30)]

/-- The concrete store. -/
def wStore : Store := Store.mk [wRow1, wRow2, wRow3] 4

/-- Witness for C1. -/
theorem list_instances_page_window_witness :
    list_instances wStore none none 1 (some 1) =
      ((list_instances wStore none none 0 none).drop 1).take 1 :=
  (list_instances_page_window wStore none none 1 1 (by decide)).1

/-- Witness for C2. -/
theorem create_then_retrieve_witness :
    (create_instance wStore [("age", Val.i 0)] [("name", Val.s "D")]).1 =
      Except.ok (applyDefaults [("age", Val.i 0)]
        (setAttr (construct [("name", Val.s "D")]) "id" (Val.i wStore.nextId))) := by
  obtain ⟨ser, h1, h2, -, -⟩ :=
    create_then_retrieve wStore [("age", Val.i 0)] [("name", Val.s "D")] (by decide) (by decide)
  rw [h1, h2]

/-- Witness for C3. -/
theorem delete_then_retrieve_notfound_witness :
    (delete_instance wStore 2).1 = Except.ok (as_dict wRow2) ∧
    retrieve_instance (delete_instance wStore 2).2 2 =
      Except.error (HTTPException.mk 404) :=
  delete_then_retrieve_notfound wStore 2 wRow2 (by decide) (by decide)

/-- Witness for C4. -/
theorem update_notfound_unchanged_witness :
    update_instance wStore 9 [("age", Val.i 99)] =
      (Except.error (HTTPException.mk 404), wStore) :=
  update_notfound_unchanged wStore 9 [("age", Val.i 99)] (by decide)

/-- Witness for C5. -/
theorem update_overwrites_and_commits_witness :
    (update_instance wStore 2 [("age", Val.i 21)]).1 =
      Except.ok (as_dict (setFields wRow2 [("age", Val.i 21)])) := by
  obtain ⟨ser, h1, h2, -, -, -⟩ :=
    update_overwrites_and_commits wStore 2 [("age", Val.i 21)] wRow2 (by decide) (by decide)
  rw [h1, h2]

/-- Witness for C6. -/
theorem retrieve_notfound_iff_witness :
    retrieve_instance wStore 2 = Except.ok (as_dict wRow2) :=
  (retrieve_notfound_iff wStore 2).2 wRow2 (by decide)

/-- Witness for C10. -/
theorem notfound_mechanism_witness :
    HTTPException.mk 404 = HTTPException.mk 404 ∧ retrieveWork wStore 9 = none :=
  (notfound_mechanism wStore 9 []).2.2.2.1 (HTTPException.mk 404) rfl
